import Mathlib

/-!
Verification development for the rpi-mqtt-fb-panel repository (a Python
framebuffer MQTT alert panel).  The Python sources are shallowly embedded:
pure computations become Lean functions over `Int` / `Nat` / `String`,
stateful callbacks become explicit state-passing functions, drawing calls
become lists of primitive descriptors, and Python `TypeError`-raising call
sites are modelled through an explicit argument-binding check that follows
Python's positional/keyword binding rules.

Conventions:
* Python `//` (floor division) is `Int.fdiv`; Python `int()` applied to a
  half-integer (truncation towards zero) is `Int.tdiv`.
* Pillow font measurement (`text_size`) is an abstract parameter
  `measure : Int -> Int x Int` mapping a font size to the measured
  (width, height) of the fixed text under consideration; likewise
  `textwrap.wrap` is an abstract `wrap` parameter.  All structure around
  those calls is translated from the source.
-/

/-! ## Python call binding (mqtt_fb_panel.refresh_display dispatch)

A Python call `f(a1, ..., an, k1=v1, ..., km=vm)` binds against the
parameter list of `f`: it raises `TypeError` when there are more
positional arguments than parameters, when a keyword does not name a
parameter, when a keyword names a parameter already filled positionally,
or when a parameter with no default stays unbound. -/

structure PyParam where
  pname : String
  hasDefault : Bool
deriving DecidableEq

structure PySig where
  params : List PyParam
deriving DecidableEq

def bindOk (sig : PySig) (nPos : Nat) (kws : List String) : Bool :=
  decide (nPos ≤ sig.params.length)
    && kws.all (fun k => (sig.params.map (fun p => p.pname)).contains k)
    && kws.all (fun k => !(((sig.params.take nPos).map (fun p => p.pname)).contains k))
    && (sig.params.drop nPos).all (fun p => p.hasDefault || kws.contains p.pname)

/-- Signature of `render_event_log_full_panel(img, draw, messages_store,
debug_layout_enabled)` (event_log_mode.py line 134). -/
def render_event_log_full_panel_sig : PySig :=
  ⟨[⟨"img", false⟩, ⟨"draw", false⟩, ⟨"messages_store", false⟩,
    ⟨"debug_layout_enabled", false⟩]⟩

/-- Signature of `render_clock_full_panel(img, draw, active_buttons_list,
debug_layout_enabled)` (clock_mode.py line 152). -/
def render_clock_full_panel_sig : PySig :=
  ⟨[⟨"img", false⟩, ⟨"draw", false⟩, ⟨"active_buttons_list", false⟩,
    ⟨"debug_layout_enabled", false⟩]⟩

/-- Signature of `render_top_bar(draw, screen_width, title_text,
debug_layout_enabled=False)` (lcars_ui_components.py line 6). -/
def render_top_bar_sig : PySig :=
  ⟨[⟨"draw", false⟩, ⟨"screen_width", false⟩, ⟨"title_text", false⟩,
    ⟨"debug_layout_enabled", true⟩]⟩

/-- Signature of `render_bottom_bar(draw, screen_width, screen_height,
label_text, buttons_config, debug_layout_enabled=False)`
(lcars_ui_components.py lines 58-60). -/
def render_bottom_bar_sig : PySig :=
  ⟨[⟨"draw", false⟩, ⟨"screen_width", false⟩, ⟨"screen_height", false⟩,
    ⟨"label_text", false⟩, ⟨"buttons_config", false⟩,
    ⟨"debug_layout_enabled", true⟩]⟩

/-- The call `render_event_log_full_panel(img, draw, messages_store,
active_buttons, debug_layout_enabled)` (mqtt_fb_panel.py lines 106 and 111):
five positional arguments. -/
def call_render_event_log_from_refresh : Bool :=
  bindOk render_event_log_full_panel_sig 5 []

/-- The call `render_clock_full_panel(img, draw, active_buttons,
debug_layout_enabled)` (mqtt_fb_panel.py line 108): four positional
arguments. -/
def call_render_clock_from_refresh : Bool :=
  bindOk render_clock_full_panel_sig 4 []

/-- The call `render_top_bar(draw, WIDTH, "CURRENT TIME",
debug_layout_enabled=debug_layout_enabled)` (clock_mode.py line 153). -/
def call_render_top_bar_from_clock : Bool :=
  bindOk render_top_bar_sig 3 ["debug_layout_enabled"]

/-- The call `render_bottom_bar(draw, WIDTH, HEIGHT, label_text=...,
buttons_config=..., active_buttons_list=..., debug_layout_enabled=...)`
(clock_mode.py lines 159-163). -/
def call_render_bottom_bar_from_clock : Bool :=
  bindOk render_bottom_bar_sig 3
    ["label_text", "buttons_config", "active_buttons_list", "debug_layout_enabled"]

inductive RenderEv where
  | typeErrorAt (callee : String)
  | framePushed
deriving DecidableEq

/-- Runs a sequence of (callee, binding-succeeded) checks in order; the
first failed binding raises `TypeError` and aborts, otherwise execution
reaches `push(img)` at the end of `refresh_display`. -/
def runCalls : List (String × Bool) → List RenderEv
  | [] => [RenderEv.framePushed]
  | (n, ok) :: rest => if ok then runCalls rest else [RenderEv.typeErrorAt n]

/-- Call sequence of `refresh_display` (mqtt_fb_panel.py lines 100-135) for
a given `current_display_mode`: the events branch (and unknown-mode
fallback) invoke `render_event_log_full_panel`; the clock branch invokes
`render_clock_full_panel`, which in turn calls `render_top_bar` and
`render_bottom_bar` before returning. -/
def refreshDisplayCalls (mode : String) : List (String × Bool) :=
  if mode = "events" then
    [("render_event_log_full_panel", call_render_event_log_from_refresh)]
  else if mode = "clock" then
    [("render_clock_full_panel", call_render_clock_from_refresh),
     ("render_top_bar", call_render_top_bar_from_clock),
     ("render_bottom_bar", call_render_bottom_bar_from_clock)]
  else
    [("render_event_log_full_panel", call_render_event_log_from_refresh)]

def refreshDisplayTrace (mode : String) : List RenderEv :=
  runCalls (refreshDisplayCalls mode)

/-! ## lcars_drawing_utils.draw_lcars_shape

Drawing calls are reified as primitives.  A `sliceLeft` is
`draw.pieslice(box, 90, 270)` (left half-disc of the box), a `sliceRight`
is `draw.pieslice(box, -90, 90)` (right half-disc). -/

inductive Prim where
  | rect (x0 y0 x1 y1 : Int)
  | sliceLeft (x0 y0 x1 y1 : Int)
  | sliceRight (x0 y0 x1 y1 : Int)
  | ellipse (x0 y0 x1 y1 : Int)
deriving DecidableEq

/-- Radius adjustment at the top of `draw_lcars_shape`
(lcars_drawing_utils.py lines 29-44).  Python `radius = w // 2` is
`Int.fdiv`; `radius = int(max_radius)` truncates the half-integer
`min(w/2, h/2)` (resp. `h/2`) towards zero, which is `Int.tdiv` of the
integer by 2. -/
def adjustRadius (w h radius : Int) (left_round right_round : Bool) : Int :=
  let r0 := if radius < 0 then 0 else radius
  let r1 := if (left_round || right_round) && decide (w < 2 * r0) then Int.fdiv w 2 else r0
  let r2 := if (left_round || right_round) && decide (h < 2 * r1) then Int.fdiv h 2 else r1
  if left_round && right_round then
    if 2 * r2 > min w h then Int.tdiv (min w h) 2 else r2
  else if left_round || right_round then
    if 2 * r2 > h then Int.tdiv h 2 else r2
  else r2

/-- The list of drawing primitives emitted by `draw_lcars_shape`
(lcars_drawing_utils.py lines 21-77), including the optional final debug
bounding box. -/
def draw_lcars_shape (x y w h radius : Int) (left_round right_round dbg : Bool) :
    List Prim :=
  let r := adjustRadius w h radius left_round right_round
  let body :=
    if left_round && right_round then
      if decide (w > 2 * r) && decide (h > 0) then
        [Prim.rect (x + r) y (x + w - r) (y + h),
         Prim.sliceLeft x y (x + 2 * r) (y + h),
         Prim.sliceRight (x + w - 2 * r) y (x + w) (y + h)]
      else if decide (w > 0) && decide (h > 0) then
        [Prim.ellipse x y (x + w) (y + h)]
      else []
    else if left_round then
      if decide (w > r) && decide (h > 0) then
        [Prim.rect (x + r) y (x + w) (y + h),
         Prim.sliceLeft x y (x + 2 * r) (y + h)]
      else if decide (w > 0) && decide (h > 0) then
        [Prim.rect x y (x + w) (y + h)]
      else []
    else if right_round then
      if decide (w > r) && decide (h > 0) then
        [Prim.rect x y (x + w - r) (y + h),
         Prim.sliceRight (x + w - 2 * r) y (x + w) (y + h)]
      else if decide (w > 0) && decide (h > 0) then
        [Prim.rect x y (x + w) (y + h)]
      else []
    else
      if decide (w > 0) && decide (h > 0) then
        [Prim.rect x y (x + w) (y + h)]
      else []
  body ++
    (if dbg && decide (w > 0) && decide (h > 0) then
      [Prim.rect x y (x + w - 1) (y + h - 1)]
    else [])

/-- On-screen extent of a primitive, as (xlo, ylo, xhi, yhi): a pieslice
bounding box `(x0, y0, x1, y1)` with angles 90..270 covers only the left
half of the box, up to the horizontal center; -90..90 covers the right
half. -/
def primBox : Prim → Int × Int × Int × Int
  | Prim.rect x0 y0 x1 y1 => (x0, y0, x1, y1)
  | Prim.ellipse x0 y0 x1 y1 => (x0, y0, x1, y1)
  | Prim.sliceLeft x0 y0 x1 y1 => (x0, y0, Int.tdiv (x0 + x1) 2, y1)
  | Prim.sliceRight x0 y0 x1 y1 => (Int.tdiv (x0 + x1) 2, y0, x1, y1)

/-- A primitive's raw coordinate box is drawable by Pillow only when
`x0 <= x1` and `y0 <= y1`; Pillow's ImageDraw rejects inverted boxes. -/
def primWellFormed : Prim → Bool
  | Prim.rect x0 y0 x1 y1 => decide (x0 ≤ x1) && decide (y0 ≤ y1)
  | Prim.ellipse x0 y0 x1 y1 => decide (x0 ≤ x1) && decide (y0 ≤ y1)
  | Prim.sliceLeft x0 y0 x1 y1 => decide (x0 ≤ x1) && decide (y0 ≤ y1)
  | Prim.sliceRight x0 y0 x1 y1 => decide (x0 ≤ x1) && decide (y0 ≤ y1)

def boxUnion (a b : Int × Int × Int × Int) : Int × Int × Int × Int :=
  (min a.1 b.1, min a.2.1 b.2.1, max a.2.2.1 b.2.2.1, max a.2.2.2 b.2.2.2)

/-- Bounding box of the union of a list of primitives (`none` when nothing
is drawn). -/
def shapeBBox : List Prim → Option (Int × Int × Int × Int)
  | [] => none
  | p :: ps => some (ps.foldl (fun acc q => boxUnion acc (primBox q)) (primBox p))

/-! ## lcars_ui_components.render_top_bar geometry

The concrete values of `lc.PADDING` and `lc.BAR_HEIGHT` enter the layout
only as numbers, so they are parameters `pad` and `barH`; Pillow text
measurement under `lc.TITLE_FONT` is the abstract `wTitle`.  Field names
follow the source variables.  The source ignores its `title_text`
argument: it measures and draws the hardcoded string "EVENT LOG"
(lcars_ui_components.py lines 21-37). -/

structure TopBarLayout where
  left_terminator_x : Int
  right_terminator_x : Int
  text_x_coordinate : Int
  bar_segment_start_x : Int
  bar_segment_end_x : Int
  bar_segment_width : Int
  bar_segment_drawn : Bool
  /-- The string passed to the unconditional `draw.text` call. -/
  title_drawn_text : String
deriving DecidableEq

/-- Layout computed by `render_top_bar` (lcars_ui_components.py lines
6-56).  The `title_text` parameter is accepted but unused, as in the
source: both the drawn text and the width that drives the layout are
those of the hardcoded `event_log_text = "EVENT LOG"`.  The text is
drawn unconditionally; the filler bar segment only when its width is
positive. -/
def render_top_bar (screenW pad barH : Int) (wTitle : String → Int)
    (title_text : String) : TopBarLayout :=
  let event_log_text := "EVENT LOG"
  let event_log_text_w := wTitle event_log_text
  let text_x := (screenW - pad - barH) - pad - event_log_text_w
  let seg_start := pad + barH + pad
  let seg_end := text_x - pad
  let seg_w := seg_end - seg_start
  { left_terminator_x := pad
    right_terminator_x := screenW - pad - barH
    text_x_coordinate := text_x
    bar_segment_start_x := seg_start
    bar_segment_end_x := seg_end
    bar_segment_width := seg_w
    bar_segment_drawn := decide (seg_w > 0)
    title_drawn_text := event_log_text }

/-- Horizontal distance between the inner edge of the left terminator
(which ends at `pad + barH`) and the inner edge of the right terminator
(which starts at `screenW - pad - barH`). -/
def terminatorGap (screenW pad barH : Int) : Int :=
  (screenW - pad - barH) - (pad + barH)

/-! ## lcars_ui_components.render_bottom_bar

The bottom bar renderer.  Pillow text measurement is abstracted by
`wTitle`/`wBody` (measured pixel width of a string under `lc.TITLE_FONT`
resp. `lc.BODY_FONT`); the geometric constants `lc.PADDING = 5` and
`lc.BUTTON_PADDING_X = 10` come from lcars_constants.py, while
`lc.BAR_HEIGHT` and `lc.CORNER_RADIUS` depend on the loaded font and stay
parameters.  Colors are carried as symbolic names. -/

def PADDING : Int := 5

def BUTTON_PADDING_X : Int := 10

structure ButtonCfg where
  btext : String
  color : String
  bid : String
deriving DecidableEq

/-- A Button Descriptor as consumed by the coordination loop's
hit-testing (`active_buttons` entries, mqtt_fb_panel.py line 76). -/
structure ButtonDesc where
  bid : String
  btext : String
  color : String
  rect : Int × Int × Int × Int
deriving DecidableEq

inductive DrawOp where
  | shape (color : String) (prims : List Prim)
  | textDraw (s : String) (x y : Int)
deriving DecidableEq

structure BottomBarRender where
  ops : List DrawOp
  /-- Descriptors appended to the caller-visible active-buttons list.
  The body of `render_bottom_bar` (lcars_ui_components.py lines 58-161)
  has no parameter for such a list and appends to none, so this is
  always empty. -/
  appendedButtonRegions : List ButtonDesc
deriving DecidableEq

/-- The per-button detail records built in the sizing loop
(lcars_ui_components.py lines 99-114): hardcoded texts and colors,
rendered width `text width + 2 * BUTTON_PADDING_X`. -/
def bottom_bar_button_details (wBody : String → Int) : List (String × Int × String) :=
  [("CLEAR", wBody "CLEAR" + 2 * BUTTON_PADDING_X, "COLOR_BUTTON_CLEAR"),
   ("RELATIVE", wBody "RELATIVE" + 2 * BUTTON_PADDING_X, "COLOR_BUTTON_RELATIVE"),
   ("CLOCK", wBody "CLOCK" + 2 * BUTTON_PADDING_X, "COLOR_BUTTON_CLOCK")]

/-- Total width of the button group with the two inter-button paddings. -/
def required_width_for_all_buttons_and_spacing (wBody : String → Int) : Int :=
  (wBody "CLEAR" + 2 * BUTTON_PADDING_X) + PADDING
    + (wBody "RELATIVE" + 2 * BUTTON_PADDING_X) + PADDING
    + (wBody "CLOCK" + 2 * BUTTON_PADDING_X)

/-- The button drawing loop (lcars_ui_components.py lines 137-147): each
button draws its pill and its right-aligned label, advancing by the button
width plus inter-button padding. -/
def draw_button_row (barY barH : Int) (dbg : Bool) :
    Int → List (String × Int × String) → List DrawOp
  | _, [] => []
  | bx, (btext, bwidth, bcolor) :: rest =>
      DrawOp.shape bcolor (draw_lcars_shape bx barY bwidth barH 0 false false dbg)
        :: DrawOp.textDraw btext (bx + bwidth - BUTTON_PADDING_X) (barY + barH)
        :: draw_button_row barY barH dbg
             (bx + bwidth + (if rest.isEmpty then 0 else PADDING)) rest

/-- `render_bottom_bar` (lcars_ui_components.py lines 58-161).  Note that
the source ignores both `label_text` (it draws the hardcoded string
"MQTT STREAM") and `buttons_config` (it draws the hardcoded
CLEAR/RELATIVE/CLOCK row), and that it never writes to any
button-descriptor list. -/
def render_bottom_bar (screenW screenH barH cornerR : Int)
    (wTitle wBody : String → Int) (label_text : String)
    (buttons_config : List ButtonCfg) (dbg : Bool) : BottomBarRender :=
  let barY := screenH - PADDING - barH
  let left_terminator_width := barH
  let leftTermOp := DrawOp.shape "COLOR_BARS"
    (draw_lcars_shape PADDING barY left_terminator_width barH cornerR true false dbg)
  let current_x := PADDING + left_terminator_width + PADDING
  let mqtt_w := wTitle "MQTT STREAM"
  let textOp := DrawOp.textDraw "MQTT STREAM" (current_x + Int.fdiv mqtt_w 2) (barY + barH)
  let current_x := current_x + mqtt_w + PADDING
  let right_terminator_width := barH
  let requiredW := required_width_for_all_buttons_and_spacing wBody
  let buttons_group_start_x :=
    screenW - PADDING - right_terminator_width - PADDING - requiredW
  let fill_bar_width := (buttons_group_start_x - PADDING) - current_x
  let fillOps :=
    if fill_bar_width > 0 then
      [DrawOp.shape "COLOR_BARS"
        (draw_lcars_shape current_x barY fill_bar_width barH 0 false false dbg)]
    else []
  let buttonOps :=
    if buttons_group_start_x ≥ current_x then
      draw_button_row barY barH dbg buttons_group_start_x
        (bottom_bar_button_details wBody)
    else []
  let rightTermX := screenW - PADDING - right_terminator_width
  let rightOps :=
    if rightTermX ≥ PADDING then
      [DrawOp.shape "COLOR_BARS"
        (draw_lcars_shape rightTermX barY right_terminator_width barH cornerR false true dbg)]
    else []
  { ops := leftTermOp :: textOp :: (fillOps ++ buttonOps ++ rightOps)
    appendedButtonRegions := [] }

/-- The `event_log_buttons` configuration built in
`render_event_log_full_panel` (event_log_mode.py lines 137-141). -/
def event_log_buttons : List ButtonCfg :=
  [⟨"CLEAR", "COLOR_BUTTON_CLEAR", "btn_clear"⟩,
   ⟨"RELATIVE", "COLOR_BUTTON_RELATIVE", "btn_relative"⟩,
   ⟨"CLOCK", "COLOR_BUTTON_CLOCK", "btn_clock_mode"⟩]

/-- The `clock_mode_buttons_config` built in `render_clock_full_panel`
(clock_mode.py lines 156-158). -/
def clock_mode_buttons_config : List ButtonCfg :=
  [⟨"EVENTS", "COLOR_BUTTON_RELATIVE", "btn_events_mode"⟩]

/-! ## event_log_mode message processing

A stored message; `tsStr` stands for `timestamp.strftime("%H:%M:%S")`.
`textwrap.wrap` for the session's fixed column width is the abstract
`wrap` parameter, and `wrapUsable` models the guard
`avg_char_width_message > 0 and col_message_width > 0`. -/

structure Msg where
  text : String
  source : String
  importance : String
  tsStr : String
deriving DecidableEq

structure DisplayLine where
  lsource : String
  msg_part : String
  time : String
  importance : String
deriving DecidableEq

def col_source_max_chars : Nat := 20

/-- Source column truncation (event_log_mode.py lines 54-56). -/
def truncate_source (s : String) : String :=
  if s.length > col_source_max_chars then s.take (col_source_max_chars - 3) ++ "..." else s

/-- The wrapped-lines computation including both fallbacks
(event_log_mode.py lines 60-69): when the layout is unusable the whole
text is a single line; an empty wrap result is replaced by the raw text,
or by a single empty line. -/
def wrapped_lines_for (wrapUsable : Bool) (wrap : String → List String)
    (text : String) : List String :=
  let w0 := if wrapUsable then wrap text else (if text ≠ "" then [text] else [""])
  if w0.isEmpty && decide (text ≠ "") then [text]
  else if w0.isEmpty then [""]
  else w0

/-- The per-message block of display lines (event_log_mode.py lines
50-77): the first line carries the truncated source, the first wrapped
fragment and the timestamp; each continuation line carries only its
fragment. -/
def process_one_message (wrapUsable : Bool) (wrap : String → List String)
    (m : Msg) : List DisplayLine :=
  let wls := wrapped_lines_for wrapUsable wrap m.text
  { lsource := truncate_source m.source, msg_part := wls.headD "",
    time := m.tsStr, importance := m.importance }
    :: wls.tail.map (fun lp =>
        { lsource := "", msg_part := lp, time := "", importance := m.importance })

/-- `_process_messages_for_display` (event_log_mode.py lines 46-78). -/
def process_messages_for_display (wrapUsable : Bool) (wrap : String → List String)
    (msgs : List Msg) : List DisplayLine :=
  msgs.flatMap (process_one_message wrapUsable wrap)

/-- Python's `l[-n:]` for `n > 0`: the last `n` elements. -/
def lastN (n : Nat) (l : List α) : List α := l.drop (l.length - n)

/-- The visible-slice selection of `render_event_log_content_area`
(event_log_mode.py lines 108-112): when the line height and area height
are positive and at least one line fits, the last
`message_area_height // message_line_height` processed lines are kept. -/
def lines_to_render (message_area_height message_line_height : Int)
    (processed : List DisplayLine) : List DisplayLine :=
  if 0 < message_line_height ∧ 0 < message_area_height then
    let maxLines := Int.fdiv message_area_height message_line_height
    if 0 < maxLines then lastN maxLines.toNat processed else []
  else []

/-- The row-drawing loop (event_log_mode.py lines 114-132): starting at
`y_start`, a row is drawn only while `y + BODY_FONT.size <= y_end`, and
`y` advances by the line height. -/
def render_rows (y_end font_size line_height : Int) :
    Int → List DisplayLine → List DisplayLine
  | _, [] => []
  | y, l :: ls =>
      if y + font_size > y_end then []
      else l :: render_rows y_end font_size line_height (y + line_height) ls

/-! ## clock_mode._get_max_font_for_text_and_space

Font loading plus measurement at size `s` is the abstract
`measure : Int -> Int x Int` (width, height).  The Python loop
`while current_size >= min_font_size: ... current_size -= font_size_step`
is translated with the same descent; a non-positive step, on which the
Python loop would never terminate, is mapped to `none` and is excluded by
hypothesis in every theorem (both call sites use the default step 2). -/

def tested_sizes (minS step : Int) : Int → List Int
  | current =>
    if step ≤ 0 then []
    else if current < minS then []
    else current :: tested_sizes minS step (current - step)
termination_by current => (current - minS + 1).toNat
decreasing_by
  simp only [not_le, not_lt] at *
  omega

def font_fit_loop (measure : Int → Int × Int) (tH tW minS step : Int) :
    Int → Option (Int × Int × Int)
  | current =>
    if step ≤ 0 then none
    else if current < minS then
      some (minS, (measure minS).1, (measure minS).2)
    else
      let wh := measure current
      if (measure current).2 ≤ tH ∧ (measure current).1 ≤ tW then
        some (current, wh.1, wh.2)
      else font_fit_loop measure tH tW minS step (current - step)
termination_by current => (current - minS + 1).toNat
decreasing_by
  simp only [not_le, not_lt] at *
  omega

/-- `_get_max_font_for_text_and_space` (clock_mode.py lines 57-95):
returns `none` for empty text or non-positive bounds, otherwise descends
from `initial` looking for the first fitting size; when none fits it
loads the font at `minS` and measures it afresh. -/
def get_max_font_for_text_and_space (measure : Int → Int × Int)
    (text : String) (tH tW initial minS step : Int) : Option (Int × Int × Int) :=
  if text = "" ∨ tH ≤ 0 ∨ tW ≤ 0 then none
  else font_fit_loop measure tH tW minS step initial

/-- Concrete measurement gadget for counterexamples: text at size `s`
measures `s` wide and `s` tall. -/
def sample_measure : Int → Int × Int := fun s => (s, s)

/-! ## mqtt_fb_panel.get_calibrated_scaled_value

Python float arithmetic on these values is exact rational arithmetic on
the inputs, so the embedding is over `ℚ`. -/

def get_calibrated_scaled_value (raw_val r_min r_max target_dim cal_error : ℚ) : ℚ :=
  let D_minus_1 := target_dim - 1
  let denominator := D_minus_1 - 2 * cal_error
  if denominator ≤ 0 then
    if r_max - r_min = 0 then D_minus_1 / 2
    else (raw_val - r_min) * D_minus_1 / (r_max - r_min)
  else
    let output_min := -cal_error * D_minus_1 / denominator
    let output_span := D_minus_1 ^ 2 / denominator
    if r_max - r_min = 0 then output_min + output_span / 2
    else (raw_val - r_min) * output_span / (r_max - r_min) + output_min

/-! ## messages_store: bounded deque

`messages_store = deque(maxlen=MAX_MESSAGES_IN_STORE)`
(mqtt_fb_panel.py line 404).  A `collections.deque` with `maxlen` set
discards items from the opposite end when an append would exceed the
bound, so appending keeps the last `maxlen` elements. -/

def MAX_MESSAGES_IN_STORE_default : Nat := 50

def dequeAppend (maxlen : Nat) (xs : List α) (x : α) : List α :=
  lastN maxlen (xs ++ [x])

/-! ## mqtt_fb_panel.on_mqtt -/

/-- Python `str.startswith` on the decoded topic, evaluated over the
character list. -/
def strStartsWith (s p : String) : Bool := p.toList.isPrefixOf s.toList

structure MsgRec where
  text : String
  msource : String
  importance : String
  tsStr : String
  topic : String
deriving DecidableEq

structure PanelState where
  messages : List MsgRec
  mode : String
  debugLayout : Bool
  debugTouch : Bool
  logControl : Bool
  lastDebugTouch : Option (Int × Int)
deriving DecidableEq

/-- Result of `json.loads(payload_str)` followed by the `.get` calls:
either a JSON object with the four optional fields, or a decode
failure. -/
structure JsonFields where
  message : Option String
  jsource : Option String
  importance : Option String
  timestamp : Option String
deriving DecidableEq

inductive ParseResult where
  | json (f : JsonFields)
  | notJson
deriving DecidableEq

/-- The control branch of `on_mqtt` (mqtt_fb_panel.py lines 414-495).
`nowTs` stands for `datetime.now()` rendered as a time string. -/
def on_mqtt_control (maxStore : Nat) (nowTs : String) (ctrlHead : String)
    (st : PanelState) (topic payload : String) : PanelState × Bool :=
  let sfx := topic.drop ctrlHead.length
  let (st1, needs1) :=
    if sfx = "debug-layout" then
      (if payload = "enable" then { st with debugLayout := true }
       else if payload = "disable" ∨ payload = "" then { st with debugLayout := false }
       else st, true)
    else if sfx = "debug-touch" then
      (if payload = "enable" then
        (if st.debugTouch then (st, false)
         else ({ st with debugTouch := true }, true))
       else if payload = "disable" ∨ payload = "" then
        (if st.debugTouch then
          ({ st with debugTouch := false, lastDebugTouch := none }, true)
         else (st, false))
       else (st, false))
    else if sfx = "log-control" then
      (if payload = "enable" then { st with logControl := true }
       else if payload = "disable" ∨ payload = "" then { st with logControl := false }
       else st, false)
    else if sfx = "mode-select" then
      (if payload = "events" then
        (if st.mode ≠ "events" then ({ st with mode := "events" }, true) else (st, false))
       else if payload = "clock" then
        (if st.mode ≠ "clock" then ({ st with mode := "clock" }, true) else (st, false))
       else (st, false))
    else if sfx = "clear-events" then
      ({ st with messages := [] }, st.mode = "events")
    else (st, false)
  if st1.logControl then
    let m : MsgRec := { text := payload, msource := "LCARS/" ++ sfx,
                        importance := "control", tsStr := nowTs, topic := topic }
    let st2 := { st1 with messages := dequeAppend maxStore st1.messages m }
    (st2, needs1 ∨ st2.mode = "events")
  else (st1, needs1)

/-- Source attribution for a raw (non-JSON) payload (mqtt_fb_panel.py
lines 513-530). -/
def source_from_topic (dataHead topic : String) : String :=
  if strStartsWith topic dataHead then
    let sfx := topic.drop dataHead.length
    if sfx ≠ "" then sfx
    else
      let stripped := dataHead.dropRightWhile (fun c => c = '/')
      if stripped = "" then "/"
      else ((stripped.splitOn "/").getLastD "")
  else
    let parts := topic.splitOn "/"
    let lastPart :=
      if parts.getLastD "" ≠ "" then parts.getLastD ""
      else if parts.length > 1 ∧ parts.getD (parts.length - 2) "" ≠ "" then
        parts.getD (parts.length - 2) ""
      else topic
    if lastPart ≠ "" then lastPart else "Unknown"

/-- `on_mqtt` (mqtt_fb_panel.py lines 406-565) as a state transformer.
The returned `Bool` says whether `refresh_display()` is invoked.
`parse` models `json.loads` on the decoded payload; `resolveTs` models
the timestamp parsing chain (given the optional `timestamp` field it
yields the rendered time string, falling back to `now` on absence or
parse failure). -/
def on_mqtt (maxStore : Nat) (ctrlHead dataHead : String)
    (parse : String → ParseResult) (resolveTs : Option String → String)
    (nowTs : String) (st : PanelState) (topic payload : String) :
    PanelState × Bool :=
  if strStartsWith topic ctrlHead then
    on_mqtt_control maxStore nowTs ctrlHead st topic payload
  else
    match parse payload with
    | ParseResult.json f =>
        match f.message with
        | none => (st, false)
        | some t =>
            if t = "" then (st, false)
            else
              let m : MsgRec := { text := t, msource := f.jsource.getD "Unknown",
                                  importance := f.importance.getD "info",
                                  tsStr := resolveTs f.timestamp, topic := topic }
              ({ st with messages := dequeAppend maxStore st.messages m },
               st.mode = "events")
    | ParseResult.notJson =>
        let m : MsgRec := { text := payload,
                            msource := source_from_topic dataHead topic,
                            importance := "info", tsStr := resolveTs none,
                            topic := topic }
        ({ st with messages := dequeAppend maxStore st.messages m },
         st.mode = "events")

/-! ## mqtt_fb_panel.bye: shutdown guard -/

inductive TeardownAct where
  | loopStop
  | blankDisplay
  | touchClose
  | fbClose
  | exitProcess
deriving DecidableEq

structure ShutdownState where
  exitInProgress : Bool
  clientConnected : Bool
  touchOpen : Bool
deriving DecidableEq

/-- The `bye` handler (mqtt_fb_panel.py lines 639-657): when
`_exit_in_progress` is already set it only exits; otherwise it sets the
guard, stops the MQTT loop if connected, blanks the display, closes the
touch device if open, releases the framebuffer, and exits. -/
def bye (st : ShutdownState) : ShutdownState × List TeardownAct :=
  if st.exitInProgress then (st, [TeardownAct.exitProcess])
  else
    ({ exitInProgress := true, clientConnected := false, touchOpen := false },
     (if st.clientConnected then [TeardownAct.loopStop] else [])
       ++ [TeardownAct.blankDisplay]
       ++ (if st.touchOpen then [TeardownAct.touchClose] else [])
       ++ [TeardownAct.fbClose, TeardownAct.exitProcess])

/-- The teardown portion of an action list (everything except the final
process exit). -/
def teardownActs (l : List TeardownAct) : List TeardownAct :=
  l.filter (fun a => a != TeardownAct.exitProcess)

/-! ## Helper lemmas -/

theorem lastN_length (n : Nat) (l : List α) : (lastN n l).length = min n l.length := by
  simp only [lastN, List.length_drop]
  omega

theorem lastN_of_le_length {n : Nat} {l : List α} (h : l.length ≤ n) : lastN n l = l := by
  simp [lastN, Nat.sub_eq_zero_of_le h]

theorem lastN_append_lastN (n : Nat) (l ys : List α) :
    lastN n (lastN n l ++ ys) = lastN n (l ++ ys) := by
  unfold lastN
  rw [← List.drop_append_of_le_length (Nat.sub_le l.length n), List.drop_drop]
  congr 1
  simp only [List.length_drop, List.length_append]
  omega

theorem dequeAppend_length_le (N : Nat) (xs : List α) (x : α) :
    (dequeAppend N xs x).length ≤ N := by
  simp only [dequeAppend, lastN_length]
  omega

theorem foldl_dequeAppend (N : Nat) (seq : List α) :
    ∀ acc : List α, acc.length ≤ N →
      List.foldl (dequeAppend N) acc seq = lastN N (acc ++ seq) := by
  induction seq with
  | nil =>
      intro acc h
      simpa using (lastN_of_le_length (l := acc) h).symm
  | cons x xs ih =>
      intro acc h
      rw [List.foldl_cons, ih _ (dequeAppend_length_le N acc x)]
      show lastN N (lastN N (acc ++ [x]) ++ xs) = _
      rw [lastN_append_lastN, List.append_assoc, List.singleton_append]

/-! ## Claim theorems -/

/-- C1: for every display mode (including the unknown-mode fallback),
`refresh_display` raises a `TypeError` before any frame is pushed: in
events mode (and the fallback) the five-positional-argument call to the
four-parameter `render_event_log_full_panel` fails to bind, and in clock
mode the `render_bottom_bar` call fails to bind because of the unknown
keyword `active_buttons_list`. -/
theorem refresh_display_raises_type_error (mode : String) :
    refreshDisplayTrace mode
      = [RenderEv.typeErrorAt
          (if mode = "clock" then "render_bottom_bar" else "render_event_log_full_panel")]
    ∧ RenderEv.framePushed ∉ refreshDisplayTrace mode := by
  by_cases h1 : mode = "events"
  · subst h1
    exact ⟨by decide, by decide⟩
  · by_cases h2 : mode = "clock"
    · subst h2
      exact ⟨by decide, by decide⟩
    · have htr : refreshDisplayTrace mode
          = [RenderEv.typeErrorAt "render_event_log_full_panel"] := by
        simp only [refreshDisplayTrace, refreshDisplayCalls, h1, h2, if_false]
        decide
      rw [htr]
      simp [h2]

/-- C2: the bottom-bar renderer appends no Button Descriptor at all — its
output is identical for any `label_text` and `buttons_config` (both are
ignored) and its descriptor list is always empty, while the clock-mode
call site that tries to hand it the active-buttons list fails to bind
(`active_buttons_list` is not a parameter). -/
theorem render_bottom_bar_appends_no_descriptors
    (screenW screenH barH cornerR : Int) (wTitle wBody : String → Int)
    (label_text label_text' : String) (cfg cfg' : List ButtonCfg) (dbg : Bool) :
    (render_bottom_bar screenW screenH barH cornerR wTitle wBody
        label_text cfg dbg).appendedButtonRegions = []
    ∧ render_bottom_bar screenW screenH barH cornerR wTitle wBody label_text cfg dbg
        = render_bottom_bar screenW screenH barH cornerR wTitle wBody label_text' cfg' dbg
    ∧ call_render_bottom_bar_from_clock = false
    ∧ clock_mode_buttons_config.length = 1 ∧ event_log_buttons.length = 3 :=
  ⟨rfl, rfl, by decide, rfl, rfl⟩

/-- C5 counterexample: with screen width 100, padding 5, bar height 20, a
measurer giving "EVENT LOG" width 9 and "CURRENT TIME" width 12, a call
passing the clock-mode title "CURRENT TIME" yields a filler width of 26
while the claimed `(distance between terminators) - (title width) -
2 * padding` is 28 — and the text rendered is "EVENT LOG", not the
passed title. -/
theorem top_bar_filler_width_counterexample :
    (render_top_bar 100 5 20 (fun s => if s = "EVENT LOG" then 9 else 12)
        "CURRENT TIME").bar_segment_width = 26
    ∧ terminatorGap 100 5 20 - 12 - 2 * 5 = 28
    ∧ (render_top_bar 100 5 20 (fun s => if s = "EVENT LOG" then 9 else 12)
        "CURRENT TIME").bar_segment_width
        ≠ terminatorGap 100 5 20 - 12 - 2 * 5
    ∧ (render_top_bar 100 5 20 (fun s => if s = "EVENT LOG" then 9 else 12)
        "CURRENT TIME").title_drawn_text ≠ "CURRENT TIME" := by
  decide

/-- C5 amended: the top-bar renderer ignores the passed title and lays
out the hardcoded string "EVENT LOG": for every title string, the filler
segment's width equals `(distance between the two terminators) -
(measured width of "EVENT LOG") - 3 * padding` (one padding gap on each
side of the filler plus one between the text and the right terminator);
the filler is drawn exactly when that quantity is positive; and the text
drawn is "EVENT LOG", the whole layout being independent of the title
argument. -/
theorem top_bar_filler_geometry (screenW pad barH : Int) (wTitle : String → Int)
    (title_text title_text' : String) :
    (render_top_bar screenW pad barH wTitle title_text).bar_segment_width
      = terminatorGap screenW pad barH - wTitle "EVENT LOG" - 3 * pad
    ∧ ((render_top_bar screenW pad barH wTitle title_text).bar_segment_drawn = true
        ↔ 0 < terminatorGap screenW pad barH - wTitle "EVENT LOG" - 3 * pad)
    ∧ (render_top_bar screenW pad barH wTitle title_text).title_drawn_text
        = "EVENT LOG"
    ∧ render_top_bar screenW pad barH wTitle title_text
        = render_top_bar screenW pad barH wTitle title_text' := by
  refine ⟨?_, ?_, rfl, rfl⟩
  · simp only [render_top_bar, terminatorGap]
    ring
  · simp only [render_top_bar, terminatorGap, decide_eq_true_eq, gt_iff_lt]
    constructor <;> (intro hlt; omega)

/-- C6: with a non-degenerate sensor range, the calibrated mapping equals
`outputMin + (raw - min)/(max - min) * outputSpan` with
`outputMin = -E*D/(D - 2E)` and `outputSpan = D^2/(D - 2E)` whenever
`D - 2E > 0`, and falls back to plain linear scaling
`(raw - min) * D / (max - min)` whenever `D - 2E <= 0` (so the corrected
denominator is used only when positive). -/
theorem get_calibrated_scaled_value_spec (raw_val r_min r_max target_dim cal_error : ℚ)
    (h : r_min < r_max) :
    (0 < (target_dim - 1) - 2 * cal_error →
      get_calibrated_scaled_value raw_val r_min r_max target_dim cal_error
        = -cal_error * (target_dim - 1) / ((target_dim - 1) - 2 * cal_error)
          + (raw_val - r_min) / (r_max - r_min)
            * ((target_dim - 1) ^ 2 / ((target_dim - 1) - 2 * cal_error)))
    ∧ ((target_dim - 1) - 2 * cal_error ≤ 0 →
      get_calibrated_scaled_value raw_val r_min r_max target_dim cal_error
        = (raw_val - r_min) * (target_dim - 1) / (r_max - r_min)) := by
  have hd : r_max - r_min ≠ 0 := sub_ne_zero.mpr h.ne'
  simp only [get_calibrated_scaled_value]
  constructor
  · intro hpos
    rw [if_neg (by linarith), if_neg hd]
    ring
  · intro hnp
    rw [if_pos hnp, if_neg hd]

/-- C6 witness at raw=3, range [0,10], dimension 100, error 2. -/
theorem get_calibrated_scaled_value_spec_witness :
    (0 < ((100 : ℚ) - 1) - 2 * 2 →
      get_calibrated_scaled_value 3 0 10 100 2
        = -2 * ((100 : ℚ) - 1) / (((100 : ℚ) - 1) - 2 * 2)
          + ((3 : ℚ) - 0) / ((10 : ℚ) - 0)
            * (((100 : ℚ) - 1) ^ 2 / (((100 : ℚ) - 1) - 2 * 2)))
    ∧ (((100 : ℚ) - 1) - 2 * 2 ≤ 0 →
      get_calibrated_scaled_value 3 0 10 100 2
        = ((3 : ℚ) - 0) * ((100 : ℚ) - 1) / ((10 : ℚ) - 0)) :=
  get_calibrated_scaled_value_spec 3 0 10 100 2 (by norm_num)

/-- C7: a deque with `maxlen = N` stores exactly the last `N` appended
elements in arrival order (so its length never exceeds `N`), appending to
a full store evicts exactly the oldest entry, and the default capacity is
50. -/
theorem messages_store_bounded_fifo {α : Type} (N : Nat) (seq xs : List α) (x : α)
    (hfull : xs.length = N) (hpos : 0 < N) :
    List.foldl (dequeAppend N) [] seq = lastN N seq
    ∧ (List.foldl (dequeAppend N) [] seq).length ≤ N
    ∧ dequeAppend N xs x = xs.tail ++ [x]
    ∧ MAX_MESSAGES_IN_STORE_default = 50 := by
  have hfold : List.foldl (dequeAppend N) [] seq = lastN N seq := by
    simpa using foldl_dequeAppend N seq [] (by simp)
  refine ⟨hfold, ?_, ?_, rfl⟩
  · rw [hfold, lastN_length]
    omega
  · have hne : 1 ≤ xs.length := by omega
    simp only [dequeAppend, lastN, List.length_append, List.length_singleton, hfull]
    rw [show N + 1 - N = 1 by omega, List.drop_append_of_le_length hne, List.drop_one]

/-- C7 witness: capacity 3 overflowed by a fourth message keeps the last
three; appending to the full store [A, B, C] evicts A. -/
theorem messages_store_bounded_fifo_witness :
    List.foldl (dequeAppend 3) ([] : List String) ["A", "B", "C", "D"] = ["B", "C", "D"]
    ∧ dequeAppend 3 ["A", "B", "C"] "D" = ["B", "C", "D"] := by
  have h := messages_store_bounded_fifo 3 ["A", "B", "C", "D"] ["A", "B", "C"] "D"
    rfl (by decide)
  exact ⟨by rw [h.1]; rfl, by rw [h.2.2.1]; rfl⟩

/-- C10: after any invocation of `bye` the exit guard is set; a second
invocation performs no teardown action, and on a state with the guard
already set `bye` leaves the state unchanged and only exits. -/
theorem bye_teardown_at_most_once (st : ShutdownState) :
    (bye st).1.exitInProgress = true
    ∧ teardownActs (bye (bye st).1).2 = []
    ∧ bye { st with exitInProgress := true }
        = ({ st with exitInProgress := true }, [TeardownAct.exitProcess]) := by
  rcases st with ⟨e, c, t⟩
  cases e <;> cases c <;> cases t <;> exact ⟨by decide, by decide, by decide⟩

theorem tdiv_two_left_helper (a b : Int) : Int.tdiv (a + (a + 2 * b)) 2 = a + b := by
  have hx : a + (a + 2 * b) = 2 * (a + b) := by ring
  rw [hx, Int.mul_tdiv_cancel_left _ (by norm_num)]

theorem tdiv_two_right_helper (a b : Int) : Int.tdiv (a - 2 * b + a) 2 = a - b := by
  have hx : a - 2 * b + a = 2 * (a - b) := by ring
  rw [hx, Int.mul_tdiv_cancel_left _ (by norm_num)]

theorem adjustRadius_nonneg (w h radius : Int) (lr rr : Bool)
    (hw : 0 < w) (hh : 0 < h) : 0 ≤ adjustRadius w h radius lr rr := by
  simp only [adjustRadius]
  split_ifs <;>
    first
      | omega
      | (apply Int.fdiv_nonneg <;> omega)
      | (apply Int.tdiv_nonneg <;> omega)

set_option maxHeartbeats 1000000 in
/-- C8 amended: for `w, h > 0` (and any integer radius and any
combination of the rounded-end flags) the primitives emitted by
`draw_lcars_shape` cover exactly the bounding box `(x, y, x+w, y+h)`
whenever `radius <= min(w,h)/2` (stated as `2*radius <= min w h`), and
every emitted primitive has a well-ordered (drawable) coordinate box.
For some inputs with `w <= 0` the routine emits primitives with inverted
boxes (see the counterexample), so the exception-freedom part of the
claim only holds for positive sizes. -/
theorem draw_lcars_shape_bbox (x y w h radius : Int) (lr rr dbg : Bool)
    (hw : 0 < w) (hh : 0 < h) :
    (2 * radius ≤ min w h →
      shapeBBox (draw_lcars_shape x y w h radius lr rr dbg)
        = some (x, y, x + w, y + h))
    ∧ ∀ p ∈ draw_lcars_shape x y w h radius lr rr dbg, primWellFormed p = true := by
  have hr0 : 0 ≤ adjustRadius w h radius lr rr := adjustRadius_nonneg w h radius lr rr hw hh
  simp only [draw_lcars_shape]
  set r := adjustRadius w h radius lr rr with hrdef
  constructor
  · intro _
    cases lr <;> cases rr <;> cases dbg <;>
      simp only [Bool.false_and, Bool.true_and, Bool.and_false, Bool.and_true,
        Bool.false_or, Bool.true_or, Bool.or_false, Bool.or_true, Bool.and_self,
        if_true, if_false] <;>
      split_ifs <;>
      simp_all only [Bool.and_eq_true, decide_eq_true_eq, gt_iff_lt,
        List.cons_append, List.nil_append, List.append_nil, shapeBBox,
        List.foldl_cons, List.foldl_nil, primBox, boxUnion,
        tdiv_two_left_helper, tdiv_two_right_helper,
        Option.some.injEq, Prod.mk.injEq, not_and, not_lt] <;>
      first
        | omega
        | tauto
  · cases lr <;> cases rr <;> cases dbg <;>
      simp only [Bool.false_and, Bool.true_and, Bool.and_false, Bool.and_true,
        Bool.false_or, Bool.true_or, Bool.or_false, Bool.or_true, Bool.and_self,
        if_true, if_false] <;>
      split_ifs <;>
      simp_all only [Bool.and_eq_true, decide_eq_true_eq, gt_iff_lt,
        List.cons_append, List.nil_append, List.append_nil,
        List.mem_cons, List.not_mem_nil, or_false, forall_eq_or_imp, forall_eq,
        primWellFormed, not_and, not_lt] <;>
      first
        | omega
        | tauto

theorem fdiv_nonpos_of_nonpos {a b : Int} (ha : a ≤ 0) (hb : 0 < b) : Int.fdiv a b ≤ 0 := by
  rw [Int.fdiv_eq_ediv _ hb.le]
  have h2 : a / b ≤ 0 / b := Int.ediv_le_ediv hb ha
  simpa using h2

theorem wrapped_lines_for_ne_nil (wu : Bool) (wrap : String → List String) (t : String) :
    wrapped_lines_for wu wrap t ≠ [] := by
  simp only [wrapped_lines_for]
  split_ifs <;> simp_all [List.isEmpty_iff]

theorem process_one_message_length (wu : Bool) (wrap : String → List String) (m : Msg) :
    (process_one_message wu wrap m).length = (wrapped_lines_for wu wrap m.text).length := by
  have h1 : 0 < (wrapped_lines_for wu wrap m.text).length :=
    List.length_pos.mpr (wrapped_lines_for_ne_nil wu wrap m.text)
  simp only [process_one_message, List.length_cons, List.length_map, List.length_tail]
  omega

theorem process_messages_length (wu : Bool) (wrap : String → List String) (msgs : List Msg) :
    (process_messages_for_display wu wrap msgs).length
      = (msgs.map (fun m => (wrapped_lines_for wu wrap m.text).length)).sum := by
  induction msgs with
  | nil => rfl
  | cons m t ih =>
      simp only [process_messages_for_display, List.flatMap_cons, List.length_append,
        List.map_cons, List.sum_cons] at *
      rw [process_one_message_length, ih]

theorem lastN_min_length (n : Nat) (l : List α) : lastN (min n l.length) l = lastN n l := by
  simp only [lastN]
  congr 1
  omega

theorem render_rows_all (y_end font_size line_height : Int) :
    ∀ (lines : List DisplayLine) (y : Int),
      (∀ i : Nat, i < lines.length → y + i * line_height + font_size ≤ y_end) →
      render_rows y_end font_size line_height y lines = lines := by
  intro lines
  induction lines with
  | nil => intro y _; rfl
  | cons l ls ih =>
      intro y hbound
      have h0 : y + font_size ≤ y_end := by simpa using hbound 0 (by simp)
      simp only [render_rows, if_neg (not_lt.mpr h0)]
      rw [ih (y + line_height) ?_]
      intro i hi
      have hstep := hbound (i + 1) (by simpa using Nat.succ_lt_succ hi)
      push_cast at hstep ⊢
      ring_nf at hstep ⊢
      linarith

/-- C3: with line height `font_size + 4` and viewport `[y_start, y_end)`,
the rows actually drawn are exactly the last
`min(floor(area_height / line_height), total wrapped lines)` lines of the
concatenated wrapped history, in original order (the per-row cutoff in
the drawing loop never truncates further); the total line count is the
sum of the per-message wrapped line counts; and each message contributes
a first line carrying its (truncated) source and its time followed by
continuation lines carrying only the message fragment. -/
theorem event_log_visible_slice (wu : Bool) (wrap : String → List String)
    (msgs : List Msg) (y_start y_end font_size : Int) (hfs : 0 ≤ font_size) :
    render_rows y_end font_size (font_size + 4) y_start
        (lines_to_render (y_end - y_start) (font_size + 4)
          (process_messages_for_display wu wrap msgs))
      = lastN
          (min ((Int.fdiv (y_end - y_start) (font_size + 4)).toNat)
            (process_messages_for_display wu wrap msgs).length)
          (process_messages_for_display wu wrap msgs)
    ∧ (process_messages_for_display wu wrap msgs).length
        = (msgs.map (fun m => (wrapped_lines_for wu wrap m.text).length)).sum
    ∧ ∀ m ∈ msgs,
        (process_one_message wu wrap m).head? =
          some { lsource := truncate_source m.source,
                 msg_part := (wrapped_lines_for wu wrap m.text).headD "",
                 time := m.tsStr, importance := m.importance }
        ∧ ∀ l ∈ (process_one_message wu wrap m).tail, l.lsource = "" ∧ l.time = "" := by
  refine ⟨?_, process_messages_length wu wrap msgs, ?_⟩
  · set processed := process_messages_for_display wu wrap msgs with hproc
    set lh := font_size + 4 with hlh
    set capI := Int.fdiv (y_end - y_start) lh with hcapI
    have hlhpos : 0 < lh := by omega
    by_cases hah : 0 < y_end - y_start
    · rw [lines_to_render, if_pos ⟨hlhpos, hah⟩]
      by_cases hml : 0 < capI
      · rw [if_pos hml, ← hcapI, ← lastN_min_length capI.toNat processed]
        apply render_rows_all
        intro i hi
        rw [lastN_length] at hi
        have hcap : (i : Int) + 1 ≤ capI := by omega
        have hmul : ((i : Int) + 1) * lh ≤ capI * lh :=
          mul_le_mul_of_nonneg_right hcap hlhpos.le
        have hcm : capI * lh ≤ y_end - y_start := by
          rw [hcapI, Int.fdiv_eq_ediv _ hlhpos.le]
          exact Int.ediv_mul_le _ hlhpos.ne'
        have hexp : ((i : Int) + 1) * lh = (i : Int) * lh + lh := by ring
        have hfs4 : font_size = lh - 4 := by omega
        rw [hexp] at hmul
        linarith
      · rw [if_neg hml]
        have hz : capI.toNat = 0 := by omega
        rw [hz]
        simp [lastN, render_rows]
    · have hcond : ¬(0 < lh ∧ 0 < y_end - y_start) := by tauto
      rw [lines_to_render, if_neg hcond]
      have hfd : capI ≤ 0 := by
        rw [hcapI]
        exact fdiv_nonpos_of_nonpos (by omega) hlhpos
      have hz : capI.toNat = 0 := by omega
      rw [hz]
      simp [lastN, render_rows]
  · intro m _
    constructor
    · rfl
    · intro l hl
      simp only [process_one_message, List.tail_cons, List.mem_map] at hl
      obtain ⟨lp, -, rfl⟩ := hl
      exact ⟨rfl, rfl⟩

theorem font_fit_loop_spec (measure : Int → Int × Int) (tH tW minS step : Int)
    (hstep : 0 < step) (current : Int) :
    ((∃ s ∈ tested_sizes minS step current, (measure s).2 ≤ tH ∧ (measure s).1 ≤ tW) →
      ∃ s, font_fit_loop measure tH tW minS step current
            = some (s, (measure s).1, (measure s).2)
          ∧ (measure s).2 ≤ tH ∧ (measure s).1 ≤ tW)
    ∧ ((∀ s ∈ tested_sizes minS step current, ¬((measure s).2 ≤ tH ∧ (measure s).1 ≤ tW)) →
      font_fit_loop measure tH tW minS step current
        = some (minS, (measure minS).1, (measure minS).2)) := by
  induction current using font_fit_loop.induct measure tH tW minS step with
  | case1 cur hbad => omega
  | case2 x cur h1 h2 =>
      have htest : tested_sizes minS step x = [] := by
        rw [tested_sizes]
        simp [h1, h2]
      have hloop : font_fit_loop measure tH tW minS step x
          = some (minS, (measure minS).1, (measure minS).2) := by
        rw [font_fit_loop]
        simp [h1, h2]
      rw [htest, hloop]
      constructor
      · intro hex
        simp at hex
      · intro _
        rfl
  | case3 x cur h1 h2 hfit =>
      have hloop : font_fit_loop measure tH tW minS step x
          = some (x, (measure x).1, (measure x).2) := by
        rw [font_fit_loop]
        simp [h1, h2, hfit.1, hfit.2]
      have htest : tested_sizes minS step x
          = x :: tested_sizes minS step (x - step) := by
        rw [tested_sizes]
        simp [h1, h2]
      constructor
      · intro _
        exact ⟨x, hloop, hfit⟩
      · intro hall
        exact absurd hfit (hall x (by rw [htest]; exact List.mem_cons_self x _))
  | case4 x cur h1 h2 hnofit ih =>
      have hloop : font_fit_loop measure tH tW minS step x
          = font_fit_loop measure tH tW minS step (x - step) := by
        rw [font_fit_loop]
        simp [h1, h2, hnofit]
      have htest : tested_sizes minS step x
          = x :: tested_sizes minS step (x - step) := by
        rw [tested_sizes]
        simp [h1, h2]
      rw [hloop, htest]
      constructor
      · intro hex
        rcases hex with ⟨s, hs, hfits⟩
        rcases List.mem_cons.mp hs with hcur | hrest
        · exact absurd (by rwa [hcur] at hfits) hnofit
        · exact ih.1 ⟨s, hrest, hfits⟩
      · intro hall
        exact ih.2 (fun s hs => hall s (List.mem_cons_of_mem _ hs))

/-- C4 amended: for nonempty text, positive bounds and positive step, if
any size in the descent from `initial` fits both bounds then the result
is a fitting size together with its own measurement; and when no tested
size fits, the function returns the configured minimum size `minS` with
a fresh measurement at `minS` (which is the smallest tested size only
when the descent lands on it), without raising. -/
theorem get_max_font_spec (measure : Int → Int × Int) (text : String)
    (tH tW initial minS step : Int) (htext : text ≠ "") (hH : 0 < tH) (hW : 0 < tW)
    (hstep : 0 < step) :
    ((∃ s ∈ tested_sizes minS step initial, (measure s).2 ≤ tH ∧ (measure s).1 ≤ tW) →
      ∃ s, get_max_font_for_text_and_space measure text tH tW initial minS step
            = some (s, (measure s).1, (measure s).2)
          ∧ (measure s).2 ≤ tH ∧ (measure s).1 ≤ tW)
    ∧ ((∀ s ∈ tested_sizes minS step initial, ¬((measure s).2 ≤ tH ∧ (measure s).1 ≤ tW)) →
      get_max_font_for_text_and_space measure text tH tW initial minS step
        = some (minS, (measure minS).1, (measure minS).2)) := by
  have hng : ¬(text = "" ∨ tH ≤ 0 ∨ tW ≤ 0) := by
    push_neg
    exact ⟨htext, by omega, by omega⟩
  rw [get_max_font_for_text_and_space, if_neg hng]
  exact font_fit_loop_spec measure tH tW minS step hstep initial

/-- C4 witness: descending from 12 with bounds 100, the first tested size
fits and is returned with its measurement. -/
theorem get_max_font_spec_witness :
    ((∃ s ∈ tested_sizes 10 2 12, (sample_measure s).2 ≤ 100 ∧ (sample_measure s).1 ≤ 100) →
      ∃ s, get_max_font_for_text_and_space sample_measure "88:88:88" 100 100 12 10 2
            = some (s, (sample_measure s).1, (sample_measure s).2)
          ∧ (sample_measure s).2 ≤ 100 ∧ (sample_measure s).1 ≤ 100)
    ∧ ((∀ s ∈ tested_sizes 10 2 12, ¬((sample_measure s).2 ≤ 100 ∧ (sample_measure s).1 ≤ 100)) →
      get_max_font_for_text_and_space sample_measure "88:88:88" 100 100 12 10 2
        = some (10, (sample_measure 10).1, (sample_measure 10).2)) :=
  get_max_font_spec sample_measure "88:88:88" 100 100 12 10 2
    (by decide) (by decide) (by decide) (by decide)

/-- C4 counterexample: descending from 11 by steps of 2 with minimum 10,
the only tested size is 11; nothing fits the bounds 5 x 5, yet the
function returns size 10 — a size that was never tested — so the claim
that it returns the smallest tested size fails. -/
theorem get_max_font_smallest_tested_counterexample :
    get_max_font_for_text_and_space sample_measure "88:88:88" 5 5 11 10 2
      = some (10, 10, 10)
    ∧ tested_sizes 10 2 11 = [11]
    ∧ (∀ s ∈ tested_sizes 10 2 11, ¬((sample_measure s).2 ≤ 5 ∧ (sample_measure s).1 ≤ 5))
    ∧ (10 : Int) ∉ tested_sizes 10 2 11 := by
  have ht : tested_sizes 10 2 11 = [11] := by
    rw [tested_sizes]
    norm_num
    rw [tested_sizes]
    norm_num
  have hl : font_fit_loop sample_measure 5 5 10 2 11 = some (10, 10, 10) := by
    rw [font_fit_loop]
    norm_num [sample_measure]
    rw [font_fit_loop]
    norm_num [sample_measure]
  refine ⟨?_, ht, by rw [ht]; decide, by rw [ht]; decide⟩
  rw [get_max_font_for_text_and_space, if_neg (by decide)]
  exact hl

/-- C8 witness: a 10 x 6 pill with radius 3 covers exactly its box and
emits only drawable primitives. -/
theorem draw_lcars_shape_bbox_witness :
    (2 * (3 : Int) ≤ min 10 6 →
      shapeBBox (draw_lcars_shape 0 0 10 6 3 true true false)
        = some (0, 0, 0 + 10, 0 + 6))
    ∧ ∀ p ∈ draw_lcars_shape 0 0 10 6 3 true true false, primWellFormed p = true :=
  draw_lcars_shape_bbox 0 0 10 6 3 true true false (by decide) (by decide)

/-- C8 counterexample: with both ends rounded, width -1, height 1 and
radius 0, the routine emits a pieslice whose bounding box is inverted
(x1 < x0), which Pillow's ImageDraw rejects — the inputs are not clamped
to a drawable result for arbitrary integers. -/
theorem draw_lcars_shape_inverted_box_counterexample :
    ∃ p ∈ draw_lcars_shape 0 0 (-1) 1 0 true true false, primWellFormed p = false := by
  decide

/-- C9: a structured (JSON) payload on a data topic whose `message` field
is absent is dropped: the state (message history, display mode, debug and
logging flags) is returned unchanged and no render is triggered. -/
theorem json_missing_message_dropped (maxStore : Nat) (ctrlHead dataHead : String)
    (parse : String → ParseResult) (resolveTs : Option String → String)
    (nowTs : String) (st : PanelState) (topic payload : String) (f : JsonFields)
    (hctrl : strStartsWith topic ctrlHead = false)
    (hparse : parse payload = ParseResult.json f)
    (hmsg : f.message = none) :
    on_mqtt maxStore ctrlHead dataHead parse resolveTs nowTs st topic payload
      = (st, false) := by
  simp only [on_mqtt, hctrl, Bool.false_eq_true, if_false, hparse, hmsg]

/-- C9 witness: a JSON object with no `message` field arriving on the
data topic leaves a concrete state untouched and triggers no render. -/
theorem json_missing_message_dropped_witness :
    on_mqtt 50 "lcars/pi/" "home/lcars_panel/"
        (fun _ => ParseResult.json ⟨none, none, none, none⟩) (fun _ => "12:00:00")
        "12:00:00" ⟨[], "events", false, false, false, none⟩
        "home/lcars_panel/door" "json-without-message"
      = (⟨[], "events", false, false, false, none⟩, false) :=
  json_missing_message_dropped 50 "lcars/pi/" "home/lcars_panel/"
    (fun _ => ParseResult.json ⟨none, none, none, none⟩) (fun _ => "12:00:00")
    "12:00:00" ⟨[], "events", false, false, false, none⟩
    "home/lcars_panel/door" "json-without-message" ⟨none, none, none, none⟩
    (by decide) rfl rfl

/-- C3 witness: one message, identity wrapping, viewport of height 20
with font size 6 (line height 10, capacity 2). -/
theorem event_log_visible_slice_witness :
    (render_rows 20 6 (6 + 4) 0
        (lines_to_render (20 - 0) (6 + 4)
          (process_messages_for_display true (fun s => [s])
            [⟨"hello", "src", "info", "12:00:00"⟩]))
      = lastN
          (min ((Int.fdiv (20 - 0) (6 + 4)).toNat)
            (process_messages_for_display true (fun s => [s])
              [⟨"hello", "src", "info", "12:00:00"⟩]).length)
          (process_messages_for_display true (fun s => [s])
            [⟨"hello", "src", "info", "12:00:00"⟩])
    ∧ (process_messages_for_display true (fun s => [s])
          [⟨"hello", "src", "info", "12:00:00"⟩]).length
        = ([⟨"hello", "src", "info", "12:00:00"⟩].map
            (fun m : Msg => (wrapped_lines_for true (fun s => [s]) m.text).length)).sum
    ∧ ∀ m ∈ [(⟨"hello", "src", "info", "12:00:00"⟩ : Msg)],
        (process_one_message true (fun s => [s]) m).head? =
          some { lsource := truncate_source m.source,
                 msg_part := (wrapped_lines_for true (fun s => [s]) m.text).headD "",
                 time := m.tsStr, importance := m.importance }
        ∧ ∀ l ∈ (process_one_message true (fun s => [s]) m).tail,
            l.lsource = "" ∧ l.time = "") :=
  event_log_visible_slice true (fun s => [s]) [⟨"hello", "src", "info", "12:00:00"⟩]
    0 20 6 (by decide)
